import Mathlib

/-!
Verification of the myFT client core (lib/myFTClient.js): the pagination
aggregator, the chunked batch-mutation engine with its outcome aggregation,
the relationship URL builder, the parse-vs-raw response pipeline of the
public add/remove operations, and the follower synchronization workflow.
Each definition is a shallow embedding of the corresponding JavaScript
function; network responses and downstream outcomes are passed in
explicitly as data.
-/

namespace MyFT

/-- A JavaScript value occupying the `total` field of a paged response:
absent (`undefined`), a number, or any other value characterized by its
truthiness and by its `parseInt` result (`none` standing for `NaN`). -/
inductive JsTotal where
  | undef : JsTotal
  | num : Int → JsTotal
  | other (truthy : Bool) (parsed : Option Int) : JsTotal
deriving DecidableEq

/-- JavaScript truthiness of the `total` value: `undefined` is falsy, a
number is truthy exactly when nonzero. -/
def JsTotal.truthy : JsTotal → Bool
  | .undef => false
  | .num n => decide (n ≠ 0)
  | .other t _ => t

/-- The result of `parseInt(total, 10)`: `none` stands for `NaN`. -/
def JsTotal.parseInt : JsTotal → Option Int
  | .undef => none
  | .num n => some n
  | .other _ p => p

/-- One page response from the remote service: an optional `items` array
(the source checks `Array.isArray(response.items)`) and the `total`
field. -/
structure PageResponse (α : Type) where
  items : Option (List α)
  total : JsTotal
deriving DecidableEq

/-- The fixed page size used by `_getAllNodeItems` (`limit: 500`). -/
def pageLimit : Nat := 500

/-- The test on line 68 of the source deciding whether `_getAllNodeItems`
requests a further page: the current response's `total` is truthy and
`page * limit` is strictly below `parseInt(total, 10)`. -/
def morePages (page limit : Nat) (total : JsTotal) : Bool :=
  total.truthy &&
    match total.parseInt with
    | some t => decide (((page * limit : Nat) : Int) < t)
    | none => false

/-- The recursive accumulation of `_getAllNodeItems`, driven by the list of
responses the remote service returns in order. Each consumed response
corresponds to one issued request, recorded as a `(page, limit)` pair in
the first component; if the loop wants a further page but the response
sequence is exhausted, the attempted request is still recorded and no
result is produced (the transport call fails). -/
def getAllNodeItemsLoop {α : Type} (limit : Nat) :
    Nat → List α → List (PageResponse α) → List (Nat × Nat) × Option (List α)
  | page, _, [] => ([(page, limit)], none)
  | page, allItems, r :: rest =>
    match r.items with
    | none => ([(page, limit)], some allItems)
    | some its =>
      if morePages page limit r.total then
        let next := getAllNodeItemsLoop limit (page + 1) (allItems ++ its) rest
        ((page, limit) :: next.1, next.2)
      else
        ([(page, limit)], some (allItems ++ its))

/-- `_getAllNodeItems`: start at page 1 with an empty accumulator and page
size 500. -/
def getAllNodeItems {α : Type} (script : List (PageResponse α)) :
    List (Nat × Nat) × Option (List α) :=
  getAllNodeItemsLoop pageLimit 1 [] script

/-- The request sequence of a pagination run that starts at page `start`
and issues `count` requests: consecutive page numbers, constant limit. -/
def consecutiveRequests (start count limit : Nat) : List (Nat × Nat) :=
  (List.range count).map (fun i => (start + i, limit))

/-- The error taxonomy of `clientErrors` as used by the client: a not-found
condition, the `ClientError` class, and any other failure. -/
inductive ClientErr where
  | notFound (msg : String)
  | clientError (msg : String)
  | other (msg : String)
deriving DecidableEq

/-- The `err instanceof clientErrors.NotFoundError` test. -/
def ClientErr.isNotFound : ClientErr → Bool
  | .notFound _ => true
  | _ => false

/-- One chunk's outcome inside the batch engine: either the parsed response
value (`.then` branch) or the error value captured by the `.catch` branch
(which returns the error instead of rethrowing it). -/
inductive Outcome (V : Type) where
  | ok (v : V)
  | err (e : ClientErr)
deriving DecidableEq

/-- The `(res instanceof Error) === false` test of line 383. -/
def Outcome.isOk {V : Type} : Outcome V → Bool
  | .ok _ => true
  | .err _ => false

/-- The generic aggregated batch failure thrown on line 391. -/
def genericBatchError : ClientErr :=
  ClientErr.clientError ("An error has occurred while processing your request.")

/-- Lines 381-395 of `_multiAddRemoveRelationships`: given the per-chunk
outcomes in chunk submission order (bluebird `Promise.map` resolves with
results indexed by input position, not by completion time), resolve with
the full outcome list if some chunk succeeded; otherwise re-raise the
single captured error if there was exactly one chunk, and the generic
`ClientError` otherwise. The one-element `.ok` shape falls into the default
branch, which is unreachable since the guard found no successful outcome. -/
def aggregateOutcomes {V : Type} (results : List (Outcome V)) :
    Except ClientErr (List (Outcome V)) :=
  if results.any Outcome.isOk then .ok results
  else
    match results with
    | [.err e] => .error e
    | _ => .error genericBatchError

/-- The splice loop of lines 346-355, with explicit fuel (one unit per
iteration; the input length suffices whenever the batch size is positive):
successive chunks of at most `batchCount` ids, in input order. -/
def chunkListAux {ι : Type} (batchCount : Nat) : Nat → List ι → List (List ι)
  | 0, _ => []
  | _, [] => []
  | fuel + 1, x :: xs =>
    ((x :: xs).take batchCount) :: chunkListAux batchCount fuel ((x :: xs).drop batchCount)

/-- The chunks cut from an id array by the splice loop. -/
def chunkList {ι : Type} (batchCount : Nat) (l : List ι) : List (List ι) :=
  chunkListAux batchCount l.length l

/-- The `nodeId` argument of `_multiAddRemoveRelationships` — a single id or
an array of ids — and equally the shape of one entry of `idChunks` (a
splice result, or the single non-array id pushed bare). -/
inductive JsIds (ι : Type) where
  | single (theId : ι)
  | many (ids : List ι)
deriving DecidableEq

/-- `idChunks`: an array is spliced into chunks of at most `batchCount`
elements; a single non-array id becomes exactly one chunk, pushed bare. -/
def mkIdChunks {ι : Type} (batchCount : Nat) : JsIds ι → List (JsIds ι)
  | .single i => [.single i]
  | .many ids => (chunkList batchCount ids).map JsIds.many

/-- A JavaScript object carrying an optional `_rel` property next to its
other fields (collected in the opaque `base`). -/
structure JsObj (β ρ : Type) where
  base : β
  rel : Option ρ
deriving DecidableEq

/-- `Object.assign({}, item, relProp !== undefined ? {_rel: relProp} : {})`:
a fresh copy of `item` whose `_rel` is overridden exactly when `relProp` is
defined. -/
def mergeRel {β ρ : Type} (relProp : Option ρ) (item : JsObj β ρ) : JsObj β ρ :=
  { item with rel := match relProp with | some p => some p | none => item.rel }

/-- The request body dispatched for one chunk:
`Object.assign({}, partial, {ids: chunk})` where `partial` holds the shared
`subjects`. -/
structure ChunkBody (ι β ρ : Type) where
  subjects : List (JsObj β ρ)
  ids : JsIds ι
deriving DecidableEq

/-- The bodies of the chunk requests issued by `_multiAddRemoveRelationships`
in chunk order: each request body pairs the shared `subjects` (the `relIds`
payloads, each copied and tagged with `_rel := relProp` when present) with
the chunk's ids. -/
def multiRequestBodies {ι β ρ : Type} (batchCount : Nat) (nodeId : JsIds ι)
    (relIds : List (JsObj β ρ)) (relProp : Option ρ) : List (ChunkBody ι β ρ) :=
  (mkIdChunks batchCount nodeId).map
    (fun chunk => { subjects := relIds.map (mergeRel relProp), ids := chunk })

/-- The resolution of `_multiAddRemoveRelationships`: one outcome per chunk,
indexed by chunk position (`outcomeOf i` is the composite of transport,
JSON parse and the per-chunk `.catch` for chunk `i`), aggregated by
`aggregateOutcomes`. -/
def multiAddRemoveRelationships {ι V : Type} (batchCount : Nat) (nodeId : JsIds ι)
    (outcomeOf : Nat → Outcome V) : Except ClientErr (List (Outcome V)) :=
  aggregateOutcomes ((List.range (mkIdChunks batchCount nodeId).length).map outcomeOf)

/-- Modelled from the spec: the chunk scheduler state of the bounded-\
concurrency dispatch. The dispatch itself is performed by the external
bluebird `Promise.map` with `{concurrency: config.BATCH_USER_CONCURRENCY}`
(line 380), which is not code of this repository; its specified behaviour
is embedded as a transition system over states holding the queued chunk
indices in submission order, the in-flight chunk indices, and the completed
chunk indices. -/
structure SchedState where
  pending : List Nat
  inFlight : List Nat
  completed : List Nat
deriving DecidableEq

/-- The initial scheduler state for `n` chunks: every chunk index queued in
submission order, none in flight, none completed. -/
def initSched (n : Nat) : SchedState :=
  { pending := List.range n, inFlight := [], completed := [] }

/-- Modelled from the spec: one scheduler transition — start the next
queued chunk when an in-flight slot is free, or complete any chunk
currently in flight (completion order is not constrained). -/
inductive SchedStep (limit : Nat) : SchedState → SchedState → Prop
  | start (s : SchedState) (i : Nat) (rest : List Nat) :
      s.pending = i :: rest → s.inFlight.length < limit →
      SchedStep limit s
        { pending := rest, inFlight := s.inFlight ++ [i], completed := s.completed }
  | finish (s : SchedState) (i : Nat) :
      i ∈ s.inFlight →
      SchedStep limit s
        { pending := s.pending, inFlight := s.inFlight.erase i,
          completed := i :: s.completed }

/-- The states the chunk scheduler can reach from the initial state. -/
inductive SchedReachable (limit n : Nat) : SchedState → Prop
  | init : SchedReachable limit n (initSched n)
  | step {s t : SchedState} : SchedReachable limit n s → SchedStep limit s t →
      SchedReachable limit n t

/-- `_createAndTriggerRelationshipRequest` (lines 451-468): the URL starts
with the base followed by the node kind; each of node id, relationship,
related node kind and related id then appends one slash-prefixed segment
exactly when that argument is not `undefined`. -/
def createRelationshipUrl (baseUrl node : String)
    (nodeId relationship relatedNode relatedNodeId : Option String) : String :=
  let u0 := baseUrl ++ "/" ++ node
  let u1 :=
    match nodeId with
    | some s => u0 ++ "/" ++ s
    | none => u0
  let u2 :=
    match relationship with
    | some s => u1 ++ "/" ++ s
    | none => u1
  let u3 :=
    match relatedNode with
    | some s => u2 ++ "/" ++ s
    | none => u2
  match relatedNodeId with
  | some s => u3 ++ "/" ++ s
  | none => u3

/-- The contribution of one optional component to the URL: a slash-prefixed
segment when present, nothing at all when omitted. -/
def optSegment : Option String → String
  | some s => "/" ++ s
  | none => ""

/-- A transport-level response: HTTP status plus the decoded JSON body that
the response would yield if parsed. -/
structure Resp (β : Type) where
  status : Nat
  body : β
deriving DecidableEq

/-- Modelled from the spec: `helpers.parseJsonRes` (lib/helpers/helpers.js
is not under src/). The parse step classifies the response by status: a 2xx
response yields its JSON body, a 404 raises a `NotFoundError`, any other
status raises a generic client error. -/
def parseJsonRes {β : Type} (r : Resp β) : Except ClientErr β :=
  if 200 ≤ r.status ∧ r.status < 300 then .ok r.body
  else if r.status = 404 then .error (ClientErr.notFound ("Not Found"))
  else .error (ClientErr.clientError ("Bad response status"))

/-- The value a public operation resolves with: either the raw transport
response, untouched, or a parsed JSON body. -/
inductive OpOutput (β : Type) where
  | raw (r : Resp β)
  | parsedBody (b : β)
deriving DecidableEq

/-- `_addRemoveUsers` (lines 101-121) applied to the transport response of
its `_addRemoveRelationships` call: the response is JSON-parsed unless
`noResultParse === true`, in which case it is resolved raw. -/
def addRemoveUsers {β : Type} (method node : String) (noResultParse : Option Bool)
    (resp : Resp β) : Except ClientErr (OpOutput β) :=
  if noResultParse = some true then .ok (OpOutput.raw resp)
  else (parseJsonRes resp).map OpOutput.parsedBody

/-- `_addRemoveGroups` (lines 134-154): the same parse-unless-flagged
shape on the license-member-group relationship. -/
def addRemoveGroups {β : Type} (noResultParse : Option Bool) (resp : Resp β) :
    Except ClientErr (OpOutput β) :=
  if noResultParse = some true then .ok (OpOutput.raw resp)
  else (parseJsonRes resp).map OpOutput.parsedBody

/-- `_removeConceptsFollowedByNode` (lines 179-197): DELETE on followed
concepts; the response is JSON-parsed unless `noResultParse === true`. -/
def removeConceptsFollowedByNode {β : Type} (noResultParse : Option Bool)
    (resp : Resp β) : Except ClientErr (OpOutput β) :=
  if noResultParse = some true then .ok (OpOutput.raw resp)
  else (parseJsonRes resp).map OpOutput.parsedBody

/-- `removeUsersFromLicence` (line 675): DELETE with `noResultParse` set. -/
def removeUsersFromLicence {β : Type} (resp : Resp β) : Except ClientErr (OpOutput β) :=
  addRemoveUsers "DELETE" "license" (some true) resp

/-- `addUsersToLicence` (line 663): POST, `noResultParse` omitted. -/
def addUsersToLicence {β : Type} (resp : Resp β) : Except ClientErr (OpOutput β) :=
  addRemoveUsers "POST" "license" none resp

/-- `removeUsersFromGroup` (line 700): DELETE with `noResultParse` set. -/
def removeUsersFromGroup {β : Type} (resp : Resp β) : Except ClientErr (OpOutput β) :=
  addRemoveUsers "DELETE" "group" (some true) resp

/-- `addUsersToGroup` (line 688): POST, `noResultParse` omitted. -/
def addUsersToGroup {β : Type} (resp : Resp β) : Except ClientErr (OpOutput β) :=
  addRemoveUsers "POST" "group" none resp

/-- `removeGroupsFromLicence` (line 724): DELETE with `noResultParse` set. -/
def removeGroupsFromLicence {β : Type} (resp : Resp β) : Except ClientErr (OpOutput β) :=
  addRemoveGroups (some true) resp

/-- `addGroupsToLicence` (line 713): POST, `noResultParse` omitted. -/
def addGroupsToLicence {β : Type} (resp : Resp β) : Except ClientErr (OpOutput β) :=
  addRemoveGroups none resp

/-- `removeConceptsFollowedByUser` (line 766): `noResultParse` set. -/
def removeConceptsFollowedByUser {β : Type} (resp : Resp β) :
    Except ClientErr (OpOutput β) :=
  removeConceptsFollowedByNode (some true) resp

/-- `removeConceptsFollowedByGroup` (line 756): `noResultParse` set. -/
def removeConceptsFollowedByGroup {β : Type} (resp : Resp β) :
    Except ClientErr (OpOutput β) :=
  removeConceptsFollowedByNode (some true) resp

/-- The per-chunk outcome of the multi engine for the chunk whose transport
response is `r`: the parsed body from the `.then(helpers.parseJsonRes)`
step, or the error value captured by the per-chunk `.catch`. -/
def outcomeOfResp {β : Type} (r : Resp β) : Outcome β :=
  match parseJsonRes r with
  | .ok b => Outcome.ok b
  | .error e => Outcome.err e

/-- `addConceptsFollowedByUser` (line 735): POST through
`_multiAddRemoveRelationships`, whose per-chunk responses are always
JSON-parsed; driven here by the list of per-chunk transport responses. -/
def addConceptsFollowedByUser {β : Type} (resps : List (Resp β)) :
    Except ClientErr (List (Outcome β)) :=
  aggregateOutcomes (resps.map outcomeOfResp)

/-- `addConceptsFollowedByGroup` (line 746): same engine for a group. -/
def addConceptsFollowedByGroup {β : Type} (resps : List (Resp β)) :
    Except ClientErr (List (Outcome β)) :=
  aggregateOutcomes (resps.map outcomeOfResp)

/-- The relationship property bag attached to a follow edge: the standard
attribution (`byTool`, `byUser`) plus the optional `asMemberOf` tag. -/
structure FollowProps where
  byTool : String
  byUser : String
  asMemberOf : Option String
deriving DecidableEq

/-- A concept record as fetched from the remote service: its uuid, an
optional `_rel` relationship-tagging field, and its remaining fields,
opaque. -/
structure Concept where
  uuid : String
  rel : Option FollowProps
  payload : String
deriving DecidableEq

/-- The email-digest preference payload. -/
structure DigestPref where
  prefType : String
  timezone : String
  byTool : String
  byUser : String
deriving DecidableEq

/-- The process-wide attribution configuration consumed by the client. -/
structure Config where
  FT_TOOL_ID : String
  FT_TOOL_ADMIN_ID : String
deriving DecidableEq

/-- `followedProperties` (line 34): a copy of the standard relationship
properties, with no `asMemberOf` tag yet. -/
def followedProperties (cfg : Config) : FollowProps :=
  { byTool := cfg.FT_TOOL_ID, byUser := cfg.FT_TOOL_ADMIN_ID, asMemberOf := none }

/-- `digestProperties` (line 35): the default daily digest merged with the
standard attribution properties. -/
def digestProperties (cfg : Config) : DigestPref :=
  { prefType := "daily", timezone := "Europe/London",
    byTool := cfg.FT_TOOL_ID, byUser := cfg.FT_TOOL_ADMIN_ID }

/-- What a concepts-followed fetch resolved with: an array of concepts, or
some non-array value (the workflow checks `Array.isArray`). -/
inductive FetchVal where
  | arr (concepts : List Concept)
  | notArr
deriving DecidableEq

/-- The outcomes of the downstream calls `syncUserFollowers` makes, in the
order it makes them: the group and user concepts-followed fetches, the
add-follows mutation, the preference fetch, the preference creation and the
kinesis emission. -/
structure SyncEnv where
  groupFetch : Except ClientErr FetchVal
  userFetch : Except ClientErr FetchVal
  addFollowOutcome : Except ClientErr Unit
  prefFetch : Except ClientErr Unit
  setPrefOutcome : Except ClientErr Unit
  kinesisOutcome : Except ClientErr Unit

/-- The `.catch` on the two concepts-followed fetches (lines 809-815 and
830-836): a `NotFoundError` is absorbed into the empty array; any other
error is rethrown. -/
def absorbNotFound (r : Except ClientErr FetchVal) : Except ClientErr FetchVal :=
  match r with
  | .ok v => .ok v
  | .error e => if e.isNotFound then .ok (FetchVal.arr []) else .error e

/-- The copy-then-`delete _rel` of lines 865-869. -/
def stripRel (c : Concept) : Concept :=
  { c with rel := none }

/-- One recorded `addConceptsFollowedByUser` call. -/
structure AddFollowCall where
  userId : String
  concepts : List Concept
  props : FollowProps
deriving DecidableEq

/-- One recorded `setEmailDigestPreference` call. -/
structure SetPrefCall where
  userId : String
  pref : DigestPref
deriving DecidableEq

/-- One recorded `kinesis.write` emission. -/
structure KinesisEvent where
  subjectId : String
  eventKind : String
  payload : List Concept
deriving DecidableEq

/-- The mutation calls and emissions a `syncUserFollowers` run issued. -/
structure SyncEffects where
  addFollowCalls : List AddFollowCall
  setPrefCalls : List SetPrefCall
  kinesisEvents : List KinesisEvent
deriving DecidableEq

/-- No mutation calls issued at all. -/
def noEffects : SyncEffects :=
  { addFollowCalls := [], setPrefCalls := [], kinesisEvents := [] }

/-- The `user` object `syncUserFollowers` resolves with. -/
structure SyncUser where
  uuid : String
  group : String
  status : String
  reason : Option String
  newConceptsToFollow : Option (List Concept)
deriving DecidableEq

/-- The observable behaviour of one `syncUserFollowers` run: the mutation
calls issued, and the resolution or rejection. -/
structure SyncOutcome where
  effects : SyncEffects
  result : Except ClientErr SyncUser

/-- Steps 8-9 of the workflow (lines 864-874): strip `_rel` from a copy of
each new concept, emit one `subscribe` event with them, then resolve with
`synchronisationCompleted`; a kinesis failure rejects after the emission
was attempted. -/
def finishEmit (env : SyncEnv) (groupId userId : String)
    (newConceptsToFollow : List Concept) (eff : SyncEffects) : SyncOutcome :=
  let cleanConcepts := newConceptsToFollow.map stripRel
  let eff2 := { eff with kinesisEvents := eff.kinesisEvents ++
    [{ subjectId := userId, eventKind := "subscribe", payload := cleanConcepts }] }
  match env.kinesisOutcome with
  | .error e => { effects := eff2, result := .error e }
  | .ok _ =>
    { effects := eff2,
      result := .ok
        { uuid := userId, group := groupId,
          status := "synchronisationCompleted", reason := none,
          newConceptsToFollow := some newConceptsToFollow } }

/-- `syncUserFollowers` (lines 806-885): fetch the group's followed
concepts (not-found absorbed as empty, non-arrays rejected); stop ignored
when the group follows nothing; fetch the user's followed concepts
(not-found absorbed as empty, non-arrays rejected); compute the group
concepts not yet followed by the user, in group order; stop ignored when
there are none; otherwise add them as followed by the user tagged
`asMemberOf := groupId`, ensure an email-digest preference exists (created
from the defaults when the fetch reports not-found; any other preference
fetch error rejects without creating one), emit one `subscribe` event with
the `_rel`-stripped new concepts and resolve completed. -/
def syncUserFollowers (cfg : Config) (env : SyncEnv) (groupId userId : String) :
    SyncOutcome :=
  match absorbNotFound env.groupFetch with
  | .error e => { effects := noEffects, result := .error e }
  | .ok FetchVal.notArr =>
    { effects := noEffects,
      result := .error (ClientErr.other ("Group groupConcepts is not an array")) }
  | .ok (FetchVal.arr groupConcepts) =>
    if 0 < groupConcepts.length then
      match absorbNotFound env.userFetch with
      | .error e => { effects := noEffects, result := .error e }
      | .ok FetchVal.notArr =>
        { effects := noEffects,
          result := .error (ClientErr.other ("User conceptsResp is not an array")) }
      | .ok (FetchVal.arr userConcepts) =>
        let userConceptIds := userConcepts.map Concept.uuid
        let newConceptsToFollow :=
          groupConcepts.filter (fun c => !(userConceptIds.contains c.uuid))
        if newConceptsToFollow.length = 0 then
          { effects := noEffects,
            result := .ok
              { uuid := userId, group := groupId,
                status := "synchronisationIgnored",
                reason := some ("noNewConceptsToFollow"),
                newConceptsToFollow := none } }
        else
          let followProps := { followedProperties cfg with asMemberOf := some groupId }
          let afterAdd : SyncEffects :=
            { addFollowCalls :=
                [{ userId := userId, concepts := newConceptsToFollow,
                   props := followProps }],
              setPrefCalls := [], kinesisEvents := [] }
          match env.addFollowOutcome with
          | .error e => { effects := afterAdd, result := .error e }
          | .ok _ =>
            match env.prefFetch with
            | .ok _ => finishEmit env groupId userId newConceptsToFollow afterAdd
            | .error e =>
              if e.isNotFound then
                let afterPref := { afterAdd with setPrefCalls :=
                  [{ userId := userId, pref := digestProperties cfg }] }
                match env.setPrefOutcome with
                | .error e2 => { effects := afterPref, result := .error e2 }
                | .ok _ => finishEmit env groupId userId newConceptsToFollow afterPref
              else { effects := afterAdd, result := .error e }
    else
      { effects := noEffects,
        result := .ok
          { uuid := userId, group := groupId,
            status := "synchronisationIgnored",
            reason := some ("noGroupConceptsToFollow"),
            newConceptsToFollow := none } }

lemma consecutiveRequests_succ (start count limit : Nat) :
    consecutiveRequests start (count + 1) limit =
      (start, limit) :: consecutiveRequests (start + 1) count limit := by
  simp only [consecutiveRequests, List.range_succ_eq_map, List.map_cons, List.map_map,
    Nat.add_zero]
  refine congrArg (fun l => (start, limit) :: l) ?_
  refine List.map_congr_left ?_
  intro i _
  simp only [Function.comp_apply, Prod.mk.injEq, and_true]
  omega

lemma getAllNodeItemsLoop_requests_len {α : Type} (limit page : Nat)
    (acc : List α) (s : List (PageResponse α)) :
    1 ≤ (getAllNodeItemsLoop limit page acc s).1.length := by
  cases s with
  | nil => simp [getAllNodeItemsLoop]
  | cons r rest =>
    obtain ⟨ritems, rtotal⟩ := r
    cases ritems with
    | none => simp [getAllNodeItemsLoop]
    | some its =>
      by_cases h : morePages page limit rtotal = true
      · simp [getAllNodeItemsLoop, h]
      · simp [getAllNodeItemsLoop, h]

lemma morePages_iff (page limit : Nat) (total : JsTotal) :
    morePages page limit total = true ↔
      (total.truthy = true ∧
        ∃ t, total.parseInt = some t ∧ ((page * limit : Nat) : Int) < t) := by
  cases h : total.parseInt with
  | none => simp [morePages, h]
  | some t => simp [morePages, h, Bool.and_eq_true]

lemma getAllNodeItemsLoop_consistent {α : Type} (T : Nat) (hT : 1 ≤ T) :
    ∀ (s : List (PageResponse α)) (p : Nat) (a : List α),
      1 ≤ p → p ≤ (T + 499) / 500 →
      (T + 499) / 500 - p + 1 ≤ s.length →
      (∀ r ∈ s, r.total = JsTotal.num (T : Int) ∧ r.items.isSome = true) →
      getAllNodeItemsLoop 500 p a s =
        (consecutiveRequests p ((T + 499) / 500 - p + 1) 500,
         some (a ++ ((s.take ((T + 499) / 500 - p + 1)).map
            (fun r => r.items.getD [])).flatten)) := by
  intro s
  induction s with
  | nil =>
    intro p a _ _ hlen _
    simp at hlen
  | cons r rest ih =>
    intro p a hp1 hpK hlen hall
    obtain ⟨ritems, rtotal⟩ := r
    obtain ⟨htot, hits⟩ := hall _ (List.mem_cons_self _ _)
    simp only at htot hits
    obtain ⟨its, hits⟩ := Option.isSome_iff_exists.mp hits
    subst htot hits
    by_cases hcont : p < (T + 499) / 500
    · have hlt : (p * 500 : Nat) < T := by omega
      have hmp2 : morePages p 500 (JsTotal.num (T : Int)) = true := by
        simp only [morePages, JsTotal.truthy, JsTotal.parseInt, Bool.and_eq_true,
          decide_eq_true_eq]
        refine ⟨by omega, by omega⟩
      have hcount : (T + 499) / 500 - p + 1 = ((T + 499) / 500 - (p + 1) + 1) + 1 := by
        omega
      have hlen2 : (T + 499) / 500 - (p + 1) + 1 ≤ rest.length := by
        simp only [List.length_cons] at hlen
        omega
      have ihr := ih (p + 1) (a ++ its) (by omega) (by omega) hlen2
        (fun r hr => hall r (List.mem_cons_of_mem _ hr))
      simp only [getAllNodeItemsLoop, hmp2, if_true, ihr]
      conv_rhs => rw [hcount, consecutiveRequests_succ]
      simp [List.append_assoc]
    · have hpe : p = (T + 499) / 500 := by omega
      have hge : ¬ ((p * 500 : Nat) : Int) < (T : Int) := by
        have := Nat.div_add_mod (T + 499) 500
        omega
      have hmp2 : morePages p 500 (JsTotal.num (T : Int)) = false := by
        simp only [morePages, JsTotal.truthy, JsTotal.parseInt]
        simp
        omega
      have hcount : (T + 499) / 500 - p + 1 = 1 := by omega
      simp [getAllNodeItemsLoop, hmp2, hcount, consecutiveRequests]
      rfl

/-- C3 (amended: the consistent total `T` is at least 1): if every response
in the script carries an `items` array and reports the same numeric total
`T ≥ 1`, and the script is long enough, the aggregator returns the
concatenation of the pages' `items` in page order and issues exactly
`ceil(T / 500)` requests with limit 500 and consecutive page numbers
starting at 1. -/
theorem getAllNodeItems_consistent_total {α : Type} (T : Nat) (hT : 1 ≤ T)
    (script : List (PageResponse α))
    (hlen : (T + 499) / 500 ≤ script.length)
    (hall : ∀ r ∈ script, r.total = JsTotal.num (T : Int) ∧ r.items.isSome = true) :
    getAllNodeItems script =
      (consecutiveRequests 1 ((T + 499) / 500) 500,
       some ((script.take ((T + 499) / 500)).map (fun r => r.items.getD [])).flatten) ∧
    (getAllNodeItems script).1.length = (T + 499) / 500 := by
  have hK : 1 ≤ (T + 499) / 500 := by omega
  have h := getAllNodeItemsLoop_consistent T hT script 1 [] (by omega) hK
    (by omega) hall
  have hc : (T + 499) / 500 - 1 + 1 = (T + 499) / 500 := by omega
  rw [hc] at h
  simp only [List.nil_append] at h
  constructor
  · simpa [getAllNodeItems, pageLimit] using h
  · have : (getAllNodeItems script).1 = consecutiveRequests 1 ((T + 499) / 500) 500 := by
      simpa [getAllNodeItems, pageLimit] using congrArg Prod.fst h
    rw [this]
    simp [consecutiveRequests]

/-- Witness for C3 at `T = 501` and a two-page script. -/
theorem getAllNodeItems_consistent_total_witness :
    getAllNodeItems [PageResponse.mk (some [1, 2]) (JsTotal.num 501),
        PageResponse.mk (some [(3 : Nat)]) (JsTotal.num 501)] =
      (consecutiveRequests 1 ((501 + 499) / 500) 500,
       some (([PageResponse.mk (some [1, 2]) (JsTotal.num 501),
          PageResponse.mk (some [(3 : Nat)]) (JsTotal.num 501)].take
            ((501 + 499) / 500)).map (fun r => r.items.getD [])).flatten) ∧
    (getAllNodeItems [PageResponse.mk (some [1, 2]) (JsTotal.num 501),
        PageResponse.mk (some [(3 : Nat)]) (JsTotal.num 501)]).1.length =
      (501 + 499) / 500 :=
  getAllNodeItems_consistent_total 501 (by decide) _ (by decide) (by decide)

/-- C3 counterexample: when every response reports the numeric total 0 the
aggregator still issues one request (the initial request is issued before
any total is seen, and a total of 0 is falsy so the loop stops there),
whereas `ceil(0 / 500) = 0`. -/
theorem getAllNodeItems_total_zero_counterexample :
    (getAllNodeItems [PageResponse.mk (some [(7 : Nat)]) (JsTotal.num 0)]).1.length = 1 ∧
      (0 + 499) / 500 = 0 := by
  constructor
  · rfl
  · rfl

/-- C7: local-only pagination termination. (1) The loop issues at most one
request more than the number of available responses, so any finite
interaction terminates. (2) On a response `r` at page `page`, a further
page is requested iff `r.items` is an array and `r.total` is truthy and
parses to an integer strictly greater than `page * 500` — a condition on
the current response only. (3) A response with no `items` array ends
accumulation immediately, whatever was accumulated before. -/
theorem getAllNodeItemsLoop_local_termination {α : Type} :
    (∀ (s : List (PageResponse α)) (page : Nat) (acc : List α),
        (getAllNodeItemsLoop 500 page acc s).1.length ≤ s.length + 1) ∧
    (∀ (r : PageResponse α) (rest : List (PageResponse α)) (page : Nat) (acc : List α),
        1 < (getAllNodeItemsLoop 500 page acc (r :: rest)).1.length ↔
          (r.items.isSome = true ∧ r.total.truthy = true ∧
            ∃ t, r.total.parseInt = some t ∧ ((page * 500 : Nat) : Int) < t)) ∧
    (∀ (r : PageResponse α) (rest : List (PageResponse α)) (page : Nat) (acc : List α),
        r.items = none →
          getAllNodeItemsLoop 500 page acc (r :: rest) = ([(page, 500)], some acc)) := by
  refine ⟨?_, ?_, ?_⟩
  · intro s
    induction s with
    | nil => intro page acc; simp [getAllNodeItemsLoop]
    | cons r rest ih =>
      intro page acc
      obtain ⟨ritems, rtotal⟩ := r
      cases ritems with
      | none => simp [getAllNodeItemsLoop]
      | some its =>
        by_cases h : morePages page 500 rtotal = true
        · have := ih (page + 1) (acc ++ its)
          simp only [getAllNodeItemsLoop, h, if_true, List.length_cons]
          simpa using this
        · simp [getAllNodeItemsLoop, h]
  · intro r rest page acc
    obtain ⟨ritems, rtotal⟩ := r
    cases ritems with
    | none => simp [getAllNodeItemsLoop]
    | some its =>
      by_cases h : morePages page 500 rtotal = true
      · have hne := getAllNodeItemsLoop_requests_len 500 (page + 1) (acc ++ its) rest
        have := (morePages_iff page 500 rtotal).mp h
        simp only [getAllNodeItemsLoop, h, if_true, List.length_cons]
        simp only [Option.isSome_some, true_and]
        constructor
        · intro _
          exact this
        · intro _
          omega
      · have hnc : ¬ (rtotal.truthy = true ∧
            ∃ t, rtotal.parseInt = some t ∧ ((page * 500 : Nat) : Int) < t) := by
          intro hc
          exact h ((morePages_iff page 500 rtotal).mpr hc)
        have hstep : getAllNodeItemsLoop 500 page acc
            (PageResponse.mk (some its) rtotal :: rest) =
              ([(page, 500)], some (acc ++ its)) := by
          simp [getAllNodeItemsLoop, h]
        rw [hstep]
        simp only [List.length_singleton, Option.isSome_some, true_and]
        constructor
        · intro hlt
          omega
        · intro hc
          exact absurd hc hnc
  · intro r rest page acc h
    obtain ⟨ritems, rtotal⟩ := r
    simp only at h
    subst h
    simp [getAllNodeItemsLoop]

/-- Witness for C7: instances of the three conjuncts at concrete inputs. -/
theorem getAllNodeItemsLoop_local_termination_witness :
    ((getAllNodeItemsLoop 500 1 ([] : List Nat) []).1.length ≤ 0 + 1) ∧
    ((PageResponse.mk (some [(5 : Nat)]) (JsTotal.num 501)).items.isSome = true ∧
      (JsTotal.num 501).truthy = true ∧
      ∃ t, (JsTotal.num 501).parseInt = some t ∧ ((1 * 500 : Nat) : Int) < t) ∧
    (getAllNodeItemsLoop 500 1 ([(9 : Nat)])
        [PageResponse.mk none (JsTotal.num 501)] = ([(1, 500)], some [9])) :=
  ⟨(getAllNodeItemsLoop_local_termination.1 [] 1 []),
   ((getAllNodeItemsLoop_local_termination.2.1
      (PageResponse.mk (some [(5 : Nat)]) (JsTotal.num 501)) [] 1 []).mp (by decide)),
   (getAllNodeItemsLoop_local_termination.2.2
      (PageResponse.mk none (JsTotal.num 501)) [] 1 [9] rfl)⟩

lemma chunkListAux_flatten {ι : Type} (C : Nat) (hC : 0 < C) :
    ∀ (fuel : Nat) (l : List ι), l.length ≤ fuel →
      (chunkListAux C fuel l).flatten = l := by
  intro fuel
  induction fuel with
  | zero =>
    intro l hl
    have : l = [] := List.length_eq_zero.mp (by omega)
    subst this
    simp [chunkListAux]
  | succ n ih =>
    intro l hl
    cases l with
    | nil => simp [chunkListAux]
    | cons x xs =>
      simp only [chunkListAux, List.flatten_cons]
      rw [ih _ (by simp only [List.length_drop, List.length_cons] at hl ⊢; omega)]
      exact List.take_append_drop C (x :: xs)

lemma ceilDiv_step (m C : Nat) (hC : 0 < C) :
    (m + 1 - C + C - 1) / C + 1 = (m + 1 + C - 1) / C := by
  have h2 : m + 1 + C - 1 = m + C := by omega
  rw [h2, Nat.add_div_right _ hC]
  rcases Nat.lt_or_ge m C with h | h
  · have h1 : m + 1 - C + C - 1 = C - 1 := by omega
    rw [h1, Nat.div_eq_of_lt (by omega), Nat.div_eq_of_lt h]
  · have h1 : m + 1 - C + C - 1 = m := by omega
    rw [h1]

lemma chunkListAux_length {ι : Type} (C : Nat) (hC : 0 < C) :
    ∀ (fuel : Nat) (l : List ι), l.length ≤ fuel →
      (chunkListAux C fuel l).length = (l.length + C - 1) / C := by
  intro fuel
  induction fuel with
  | zero =>
    intro l hl
    have : l = [] := List.length_eq_zero.mp (by omega)
    subst this
    simp only [chunkListAux, List.length_nil, Nat.zero_add]
    rw [Nat.div_eq_of_lt (by omega)]
  | succ n ih =>
    intro l hl
    cases l with
    | nil =>
      simp only [chunkListAux, List.length_nil, Nat.zero_add]
      rw [Nat.div_eq_of_lt (by omega)]
    | cons x xs =>
      simp only [chunkListAux, List.length_cons]
      rw [ih _ (by simp only [List.length_drop, List.length_cons] at hl ⊢; omega)]
      simp only [List.length_drop, List.length_cons]
      exact ceilDiv_step xs.length C hC

lemma chunkListAux_sizes {ι : Type} (C : Nat) :
    ∀ (fuel : Nat) (l : List ι) (c : List ι), c ∈ chunkListAux C fuel l → c.length ≤ C := by
  intro fuel
  induction fuel with
  | zero =>
    intro l c hc
    simp [chunkListAux] at hc
  | succ n ih =>
    intro l c hc
    cases l with
    | nil => simp [chunkListAux] at hc
    | cons x xs =>
      simp only [chunkListAux, List.mem_cons] at hc
      rcases hc with hc | hc
      · subst hc
        rw [List.length_take]
        exact Nat.min_le_left _ _
      · exact ih _ _ hc

lemma aggregateOutcomes_cases {V : Type} (os : List (Outcome V)) :
    ((∃ o ∈ os, o.isOk = true) → aggregateOutcomes os = .ok os) ∧
    (∀ e, os = [Outcome.err e] → aggregateOutcomes os = .error e) ∧
    ((∀ o ∈ os, o.isOk = false) → 2 ≤ os.length →
      aggregateOutcomes os = .error genericBatchError) := by
  refine ⟨?_, ?_, ?_⟩
  · intro h
    have hany : os.any Outcome.isOk = true := by
      obtain ⟨o, ho, hok⟩ := h
      exact List.any_eq_true.mpr ⟨o, ho, hok⟩
    simp [aggregateOutcomes, hany]
  · intro e he
    subst he
    simp [aggregateOutcomes, Outcome.isOk]
  · intro hall hlen
    have hany : os.any Outcome.isOk = false := by
      rcases h : os.any Outcome.isOk with _ | _
      · rfl
      · obtain ⟨o, ho, hok⟩ := List.any_eq_true.mp h
        rw [hall o ho] at hok
        cases hok
    match os, hlen with
    | a :: b :: t, _ => simp [aggregateOutcomes, hany]

/-- C1: aggregation policy of the batch engine. With per-chunk outcomes
indexed by chunk submission position: if at least one chunk succeeded, the
engine resolves with the full position-ordered outcome list (successes and
captured errors mixed); if all failed and there was exactly one chunk, it
raises that chunk's captured error unchanged; if all failed and there were
two or more chunks, it raises the one generic `ClientError`, which carries
none of the individual chunk errors. -/
theorem multiAddRemove_aggregation_policy {ι V : Type} (batchCount : Nat)
    (nodeId : JsIds ι) (outcomeOf : Nat → Outcome V) :
    ((∃ o ∈ (List.range (mkIdChunks batchCount nodeId).length).map outcomeOf,
        o.isOk = true) →
      multiAddRemoveRelationships batchCount nodeId outcomeOf =
        .ok ((List.range (mkIdChunks batchCount nodeId).length).map outcomeOf)) ∧
    (∀ e, (List.range (mkIdChunks batchCount nodeId).length).map outcomeOf =
        [Outcome.err e] →
      multiAddRemoveRelationships batchCount nodeId outcomeOf = .error e) ∧
    ((∀ o ∈ (List.range (mkIdChunks batchCount nodeId).length).map outcomeOf,
        o.isOk = false) →
      2 ≤ (mkIdChunks batchCount nodeId).length →
      multiAddRemoveRelationships batchCount nodeId outcomeOf =
        .error genericBatchError) := by
  have h := aggregateOutcomes_cases
    ((List.range (mkIdChunks batchCount nodeId).length).map outcomeOf)
  refine ⟨h.1, h.2.1, ?_⟩
  intro hall hlen
  exact h.2.2 hall (by simpa using hlen)

/-- Witness for C1: the three aggregation outcomes at concrete batches. -/
theorem multiAddRemove_aggregation_policy_witness :
    (multiAddRemoveRelationships 1 (JsIds.many [10, 20])
        (fun i => if i = 0 then Outcome.ok (5 : Nat)
          else Outcome.err (ClientErr.other ("boom"))) =
      .ok [Outcome.ok 5, Outcome.err (ClientErr.other ("boom"))]) ∧
    (multiAddRemoveRelationships 1 (JsIds.single (7 : Nat))
        (fun _ => Outcome.err (ClientErr.notFound ("gone")) : Nat → Outcome Nat) =
      .error (ClientErr.notFound ("gone"))) ∧
    (multiAddRemoveRelationships 1 (JsIds.many [10, 20])
        (fun _ => Outcome.err (ClientErr.notFound ("gone")) : Nat → Outcome Nat) =
      .error genericBatchError) := by
  refine ⟨?_, ?_, ?_⟩
  · have h := (multiAddRemove_aggregation_policy 1 (JsIds.many [10, 20])
      (fun i => if i = 0 then Outcome.ok (5 : Nat)
        else Outcome.err (ClientErr.other ("boom")))).1 (by decide)
    rw [h]
    rfl
  · exact (multiAddRemove_aggregation_policy 1 (JsIds.single (7 : Nat))
      (fun _ => Outcome.err (ClientErr.notFound ("gone")))).2.1
      (ClientErr.notFound ("gone")) (by decide)
  · exact (multiAddRemove_aggregation_policy 1 (JsIds.many [10, 20])
      (fun _ => Outcome.err (ClientErr.notFound ("gone")))).2.2
      (by decide) (by decide)

/-- C4: batch chunking. With a positive batch size `C`, an array of `N` ids
is cut into exactly `ceil(N / C)` chunks; the chunks are consecutive
subsequences whose in-order concatenation restores the input and each has
at most `C` elements; a single non-array id yields exactly one chunk; and
every chunk's request body pairs the `relIds` payloads — each merged with
`relProp` when present — with that chunk's ids. -/
theorem multiRequestBodies_chunking {ι β ρ : Type} (C : Nat) (hC : 0 < C)
    (ids : List ι) (i : ι) (relIds : List (JsObj β ρ)) (relProp : Option ρ) :
    (multiRequestBodies C (JsIds.many ids) relIds relProp).length =
      (ids.length + C - 1) / C ∧
    (chunkList C ids).flatten = ids ∧
    (∀ chunk ∈ chunkList C ids, chunk.length ≤ C) ∧
    multiRequestBodies C (JsIds.single i) relIds relProp =
      [ChunkBody.mk (relIds.map (mergeRel relProp)) (JsIds.single i)] ∧
    (∀ nodeId : JsIds ι, multiRequestBodies C nodeId relIds relProp =
      (mkIdChunks C nodeId).map
        (fun chunk => ChunkBody.mk (relIds.map (mergeRel relProp)) chunk)) := by
  refine ⟨?_, ?_, ?_, ?_, ?_⟩
  · simp only [multiRequestBodies, List.length_map, mkIdChunks, chunkList]
    exact chunkListAux_length C hC ids.length ids (Nat.le_refl _)
  · exact chunkListAux_flatten C hC ids.length ids (Nat.le_refl _)
  · intro chunk hchunk
    exact chunkListAux_sizes C ids.length ids chunk hchunk
  · rfl
  · intro nodeId
    rfl

/-- Witness for C4 at batch size 2 and the five-element id list. -/
theorem multiRequestBodies_chunking_witness :
    (multiRequestBodies 2 (JsIds.many [1, 2, 3, 4, 5])
        [JsObj.mk (0 : Nat) none] (some (9 : Nat))).length = (5 + 2 - 1) / 2 ∧
    (chunkList 2 [1, 2, 3, 4, 5]).flatten = [1, 2, 3, 4, 5] ∧
    (∀ chunk ∈ chunkList 2 [1, 2, 3, 4, 5], chunk.length ≤ 2) ∧
    multiRequestBodies 2 (JsIds.single 7) [JsObj.mk (0 : Nat) none] (some (9 : Nat)) =
      [ChunkBody.mk ([JsObj.mk (0 : Nat) none].map (mergeRel (some 9))) (JsIds.single 7)] ∧
    (∀ nodeId : JsIds Nat,
      multiRequestBodies 2 nodeId [JsObj.mk (0 : Nat) none] (some (9 : Nat)) =
        (mkIdChunks 2 nodeId).map
          (fun chunk =>
            ChunkBody.mk ([JsObj.mk (0 : Nat) none].map (mergeRel (some 9))) chunk)) := by
  have h := multiRequestBodies_chunking 2 (by decide) [1, 2, 3, 4, 5] 7
    [JsObj.mk (0 : Nat) none] (some (9 : Nat))
  exact h

/-- C8: bounded concurrency of chunk dispatch. In every reachable scheduler
state, at most `limit` chunk requests are in flight; the queued chunks are
exactly a suffix of the original submission-ordered queue (so chunks are
started in original order as slots free up); and the queued, in-flight and
completed chunks together are a permutation of all chunks, so no chunk
request is ever dropped. -/
theorem schedBoundedConcurrency (limit n : Nat) (s : SchedState)
    (hs : SchedReachable limit n s) :
    s.inFlight.length ≤ limit ∧
    (∃ k, k ≤ n ∧ s.pending = (List.range n).drop k) ∧
    List.Perm (s.pending ++ s.inFlight ++ s.completed) (List.range n) := by
  induction hs with
  | init =>
    exact ⟨by simp [initSched], ⟨0, by omega, by simp [initSched]⟩, by simp [initSched]⟩
  | @step s t hr hstep ih =>
    obtain ⟨hlen, ⟨k, hk, hpend⟩, hperm⟩ := ih
    cases hstep with
    | start i rest hpe hflight =>
      have hdk : (List.range n).drop k = i :: rest := hpend.symm.trans hpe
      have hperm2 : List.Perm (i :: (rest ++ s.inFlight ++ s.completed)) (List.range n) := by
        rw [hpe] at hperm
        simpa using hperm
      refine ⟨?_, ⟨k + 1, ?_, ?_⟩, ?_⟩
      · simp only [List.length_append, List.length_singleton]
        omega
      · have hlen2 := congrArg List.length hdk
        simp only [List.length_drop, List.length_range, List.length_cons] at hlen2
        omega
      · have h1 : (List.range n).drop (k + 1) = ((List.range n).drop k).drop 1 := by
          rw [List.drop_drop]
        simp only [h1, hdk, List.drop_succ_cons, List.drop_zero]
      · have hm : List.Perm (rest ++ s.inFlight ++ (i :: s.completed))
            (i :: (rest ++ s.inFlight ++ s.completed)) := List.perm_middle
        have : List.Perm (rest ++ (s.inFlight ++ [i]) ++ s.completed)
            (rest ++ s.inFlight ++ (i :: s.completed)) := by
          simp [List.append_assoc]
        exact (this.trans hm).trans hperm2
    | finish i hin =>
      have hFi : List.Perm s.inFlight (i :: s.inFlight.erase i) :=
        List.perm_cons_erase hin
      refine ⟨?_, ⟨k, hk, hpend⟩, ?_⟩
      · show (s.inFlight.erase i).length ≤ limit
        rw [List.length_erase_of_mem hin]
        omega
      · have h1 : List.Perm (s.inFlight.erase i ++ (i :: s.completed))
            (s.inFlight ++ s.completed) :=
          List.perm_middle.trans ((hFi.append_right s.completed).symm)
        have h2 : List.Perm (s.pending ++ (s.inFlight.erase i ++ (i :: s.completed)))
            (s.pending ++ (s.inFlight ++ s.completed)) := h1.append_left s.pending
        have h3 : List.Perm (s.pending ++ s.inFlight.erase i ++ (i :: s.completed))
            (s.pending ++ s.inFlight ++ s.completed) := by
          simpa [List.append_assoc] using h2
        exact h3.trans hperm

/-- Witness for C8: the invariants at the state reached from two chunks
with concurrency limit 1 after starting the first chunk. -/
theorem schedBoundedConcurrency_witness :
    (SchedState.mk [1] [0] []).inFlight.length ≤ 1 ∧
    (∃ k, k ≤ 2 ∧ (SchedState.mk [1] [0] []).pending = (List.range 2).drop k) ∧
    List.Perm ((SchedState.mk [1] [0] []).pending ++ (SchedState.mk [1] [0] []).inFlight ++
      (SchedState.mk [1] [0] []).completed) (List.range 2) :=
  schedBoundedConcurrency 1 2 (SchedState.mk [1] [0] [])
    (SchedReachable.step SchedReachable.init
      (SchedStep.start (initSched 2) 0 [1] (by decide) (by decide)))

/-- C9: request builder path order. The built URL is the base, then the node
kind segment, then — in the fixed order node id, relationship kind, related
node kind, related id — one slash-prefixed segment per component that is
not `undefined`; an omitted component contributes the empty string, so no
empty path segment is emitted for it and the order of the remaining
segments is unchanged. -/
theorem createRelationshipUrl_segments (baseUrl node : String)
    (nodeId relationship relatedNode relatedNodeId : Option String) :
    createRelationshipUrl baseUrl node nodeId relationship relatedNode relatedNodeId =
      baseUrl ++ "/" ++ node ++ optSegment nodeId ++ optSegment relationship ++
        optSegment relatedNode ++ optSegment relatedNodeId := by
  cases nodeId <;> cases relationship <;> cases relatedNode <;> cases relatedNodeId <;>
    simp [createRelationshipUrl, optSegment, String.append_assoc, String.append_empty]

/-- C10: each DELETE-based public remove operation resolves with the raw
transport response — even a 404 passes through raw, so the parse step's
status-based error classification never applies — while each corresponding
add operation resolves with the parsed JSON body of a 2xx response and
raises the classified `NotFoundError` on a 404 response. -/
theorem removeOps_raw_addOps_parsed {β : Type} (resp : Resp β) :
    (removeUsersFromLicence resp = .ok (OpOutput.raw resp) ∧
     removeUsersFromGroup resp = .ok (OpOutput.raw resp) ∧
     removeGroupsFromLicence resp = .ok (OpOutput.raw resp) ∧
     removeConceptsFollowedByUser resp = .ok (OpOutput.raw resp) ∧
     removeConceptsFollowedByGroup resp = .ok (OpOutput.raw resp)) ∧
    (200 ≤ resp.status ∧ resp.status < 300 →
      addUsersToLicence resp = .ok (OpOutput.parsedBody resp.body) ∧
      addUsersToGroup resp = .ok (OpOutput.parsedBody resp.body) ∧
      addGroupsToLicence resp = .ok (OpOutput.parsedBody resp.body) ∧
      addConceptsFollowedByUser [resp] = .ok [Outcome.ok resp.body] ∧
      addConceptsFollowedByGroup [resp] = .ok [Outcome.ok resp.body]) ∧
    (resp.status = 404 →
      addUsersToLicence resp = .error (ClientErr.notFound ("Not Found")) ∧
      addUsersToGroup resp = .error (ClientErr.notFound ("Not Found")) ∧
      addGroupsToLicence resp = .error (ClientErr.notFound ("Not Found"))) := by
  refine ⟨⟨rfl, rfl, rfl, rfl, rfl⟩, ?_, ?_⟩
  · intro h
    refine ⟨?_, ?_, ?_, ?_, ?_⟩ <;>
      simp [addUsersToLicence, addUsersToGroup, addGroupsToLicence,
        addConceptsFollowedByUser, addConceptsFollowedByGroup, addRemoveUsers,
        addRemoveGroups, aggregateOutcomes, outcomeOfResp, Outcome.isOk,
        parseJsonRes, Except.map, h]
  · intro h
    have hno : ¬ (200 ≤ resp.status ∧ resp.status < 300) := by omega
    refine ⟨?_, ?_, ?_⟩ <;>
      simp [addUsersToLicence, addUsersToGroup, addGroupsToLicence, addRemoveUsers,
        addRemoveGroups, parseJsonRes, Except.map, hno, h]

/-- Witness for C10: a DELETE-based removal passes a 404 response through
raw, an add parses a 204 body, and an add classifies a 404. -/
theorem removeOps_raw_addOps_parsed_witness :
    removeUsersFromLicence (Resp.mk 404 (3 : Nat)) =
      .ok (OpOutput.raw (Resp.mk 404 (3 : Nat))) ∧
    addUsersToLicence (Resp.mk 204 (3 : Nat)) = .ok (OpOutput.parsedBody 3) ∧
    addUsersToLicence (Resp.mk 404 (3 : Nat)) =
      .error (ClientErr.notFound ("Not Found")) :=
  ⟨(removeOps_raw_addOps_parsed (Resp.mk 404 (3 : Nat))).1.1,
   ((removeOps_raw_addOps_parsed (Resp.mk 204 (3 : Nat))).2.1 (by decide)).1,
   ((removeOps_raw_addOps_parsed (Resp.mk 404 (3 : Nat))).2.2 (by decide)).1⟩

/-- C2: the completed path of `syncUserFollowers`. With group concepts `G`
not a subset of user concepts `U` by uuid, and every downstream call
succeeding (the preference fetch may instead report not-found), the
workflow: computes `newConceptsToFollow` as exactly the members of `G`
whose uuid is absent from the uuids of `U`, in `G`'s original order; issues
exactly one add-follow call for them with the follow property `asMemberOf`
set to the group id; creates the default digest preference exactly when the
preference fetch reported not-found; emits exactly one `subscribe` event
carrying the user id and the new concepts with `_rel` stripped from each;
and resolves with status `synchronisationCompleted`, the user id, the group
id and `newConceptsToFollow`. -/
theorem syncUserFollowers_completed (cfg : Config) (env : SyncEnv)
    (groupId userId : String) (G U : List Concept)
    (hG : env.groupFetch = .ok (FetchVal.arr G))
    (hU : env.userFetch = .ok (FetchVal.arr U))
    (hnew : ∃ g ∈ G, g.uuid ∉ U.map Concept.uuid)
    (hadd : env.addFollowOutcome = .ok ())
    (hpref : env.prefFetch = .ok () ∨
      ∃ m, env.prefFetch = .error (ClientErr.notFound m))
    (hset : env.setPrefOutcome = .ok ())
    (hkin : env.kinesisOutcome = .ok ()) :
    (syncUserFollowers cfg env groupId userId).result =
      .ok
        { uuid := userId, group := groupId, status := "synchronisationCompleted",
          reason := none,
          newConceptsToFollow :=
            some (G.filter (fun c => !((U.map Concept.uuid).contains c.uuid))) } ∧
    (syncUserFollowers cfg env groupId userId).effects.addFollowCalls =
      [{ userId := userId,
         concepts := G.filter (fun c => !((U.map Concept.uuid).contains c.uuid)),
         props :=
           { byTool := cfg.FT_TOOL_ID, byUser := cfg.FT_TOOL_ADMIN_ID,
             asMemberOf := some groupId } }] ∧
    (syncUserFollowers cfg env groupId userId).effects.kinesisEvents =
      [{ subjectId := userId, eventKind := "subscribe",
         payload := (G.filter (fun c => !((U.map Concept.uuid).contains c.uuid))).map
           stripRel }] ∧
    (env.prefFetch = .ok () →
      (syncUserFollowers cfg env groupId userId).effects.setPrefCalls = []) ∧
    (∀ m, env.prefFetch = .error (ClientErr.notFound m) →
      (syncUserFollowers cfg env groupId userId).effects.setPrefCalls =
        [{ userId := userId, pref := digestProperties cfg }]) := by
  have hGpos : 0 < G.length := by
    obtain ⟨g, hg, _⟩ := hnew
    cases G with
    | nil => exact absurd hg (List.not_mem_nil g)
    | cons a l => simp
  have hcond : ¬ ∀ a ∈ G, ∃ x ∈ U, x.uuid = a.uuid := by
    obtain ⟨g, hg, hgu⟩ := hnew
    intro hfor
    obtain ⟨x, hx, he⟩ := hfor g hg
    exact hgu (List.mem_map.mpr ⟨x, hx, he⟩)
  rcases hpref with hp | ⟨m, hp⟩
  · refine ⟨?_, ?_, ?_, ?_, ?_⟩
    · simp [syncUserFollowers, absorbNotFound, finishEmit, hG, hU, hadd, hp, hkin,
        hGpos, hcond, noEffects]
    · simp [syncUserFollowers, absorbNotFound, finishEmit, hG, hU, hadd, hp, hkin,
        hGpos, hcond, noEffects, followedProperties]
    · simp [syncUserFollowers, absorbNotFound, finishEmit, hG, hU, hadd, hp, hkin,
        hGpos, hcond, noEffects]
    · intro _
      simp [syncUserFollowers, absorbNotFound, finishEmit, hG, hU, hadd, hp, hkin,
        hGpos, hcond, noEffects]
    · intro m hm
      rw [hp] at hm
      simp at hm
  · refine ⟨?_, ?_, ?_, ?_, ?_⟩
    · simp [syncUserFollowers, absorbNotFound, finishEmit, hG, hU, hadd, hp, hset,
        hkin, hGpos, hcond, noEffects, ClientErr.isNotFound]
    · simp [syncUserFollowers, absorbNotFound, finishEmit, hG, hU, hadd, hp, hset,
        hkin, hGpos, hcond, noEffects, ClientErr.isNotFound, followedProperties]
    · simp [syncUserFollowers, absorbNotFound, finishEmit, hG, hU, hadd, hp, hset,
        hkin, hGpos, hcond, noEffects, ClientErr.isNotFound]
    · intro hm
      rw [hp] at hm
      simp at hm
    · intro m2 hm
      simp [syncUserFollowers, absorbNotFound, finishEmit, hG, hU, hadd, hp, hset,
        hkin, hGpos, hcond, noEffects, ClientErr.isNotFound]

/-- Witness for C2: group follows `a` and `b`, user follows `a`, no digest
preference yet; the run adds `b` tagged with the group, creates the digest
preference, emits one subscribe event with `b` stripped of `_rel`, and
completes. -/
theorem syncUserFollowers_completed_witness :
    ((syncUserFollowers (Config.mk ("tool") ("admin"))
        (SyncEnv.mk
          (.ok (FetchVal.arr [Concept.mk ("a") none ("pa"), Concept.mk ("b") none ("pb")]))
          (.ok (FetchVal.arr [Concept.mk ("a") none ("pa")]))
          (.ok ()) (.error (ClientErr.notFound ("no pref"))) (.ok ()) (.ok ()))
        ("g1") ("u1")).result =
      .ok
        { uuid := "u1", group := "g1", status := "synchronisationCompleted",
          reason := none,
          newConceptsToFollow :=
            some ([Concept.mk ("a") none ("pa"), Concept.mk ("b") none ("pb")].filter
              (fun c =>
                !(([Concept.mk ("a") none ("pa")].map Concept.uuid).contains c.uuid))) }) ∧
    ((syncUserFollowers (Config.mk ("tool") ("admin"))
        (SyncEnv.mk
          (.ok (FetchVal.arr [Concept.mk ("a") none ("pa"), Concept.mk ("b") none ("pb")]))
          (.ok (FetchVal.arr [Concept.mk ("a") none ("pa")]))
          (.ok ()) (.error (ClientErr.notFound ("no pref"))) (.ok ()) (.ok ()))
        ("g1") ("u1")).effects.setPrefCalls =
      [{ userId := "u1",
         pref := digestProperties (Config.mk ("tool") ("admin")) }]) := by
  have h := syncUserFollowers_completed (Config.mk ("tool") ("admin"))
    (SyncEnv.mk
      (.ok (FetchVal.arr [Concept.mk ("a") none ("pa"), Concept.mk ("b") none ("pb")]))
      (.ok (FetchVal.arr [Concept.mk ("a") none ("pa")]))
      (.ok ()) (.error (ClientErr.notFound ("no pref"))) (.ok ()) (.ok ()))
    ("g1") ("u1")
    [Concept.mk ("a") none ("pa"), Concept.mk ("b") none ("pb")]
    [Concept.mk ("a") none ("pa")]
    rfl rfl
    ⟨Concept.mk ("b") none ("pb"), by decide, by decide⟩
    rfl (Or.inr ⟨"no pref", rfl⟩) rfl rfl
  exact ⟨h.1, h.2.2.2.2 ("no pref") rfl⟩

/-- C5: the ignored terminals of `syncUserFollowers`. A group with an empty
followed-concepts list resolves `synchronisationIgnored` with reason
`noGroupConceptsToFollow` and issues no mutation call at all; a nonempty
group concepts list whose uuids the user already follows in full resolves
`synchronisationIgnored` with reason `noNewConceptsToFollow`, also with no
mutation calls. -/
theorem syncUserFollowers_ignored (cfg : Config) (env : SyncEnv)
    (groupId userId : String) :
    (env.groupFetch = .ok (FetchVal.arr []) →
      syncUserFollowers cfg env groupId userId =
        { effects := noEffects,
          result := .ok
            { uuid := userId, group := groupId, status := "synchronisationIgnored",
              reason := some ("noGroupConceptsToFollow"),
              newConceptsToFollow := none } }) ∧
    (∀ G U, env.groupFetch = .ok (FetchVal.arr G) →
      env.userFetch = .ok (FetchVal.arr U) → 0 < G.length →
      (∀ g ∈ G, g.uuid ∈ U.map Concept.uuid) →
      syncUserFollowers cfg env groupId userId =
        { effects := noEffects,
          result := .ok
            { uuid := userId, group := groupId, status := "synchronisationIgnored",
              reason := some ("noNewConceptsToFollow"),
              newConceptsToFollow := none } }) := by
  constructor
  · intro hG
    simp [syncUserFollowers, absorbNotFound, hG]
  · intro G U hG hU hGpos hsub
    simp only [List.mem_map] at hsub
    simp [syncUserFollowers, absorbNotFound, hG, hU, hGpos, hsub]
    intro x hx hno
    obtain ⟨a, ha, he⟩ := hsub x hx
    exact absurd he (hno a ha)

/-- Witness for C5: the two ignored terminals at concrete inputs. -/
theorem syncUserFollowers_ignored_witness :
    (syncUserFollowers (Config.mk ("tool") ("admin"))
        (SyncEnv.mk (.ok (FetchVal.arr []))
          (.ok (FetchVal.arr [])) (.ok ()) (.ok ()) (.ok ()) (.ok ()))
        ("g1") ("u1") =
      { effects := noEffects,
        result := .ok
          { uuid := "u1", group := "g1", status := "synchronisationIgnored",
            reason := some ("noGroupConceptsToFollow"),
            newConceptsToFollow := none } }) ∧
    (syncUserFollowers (Config.mk ("tool") ("admin"))
        (SyncEnv.mk
          (.ok (FetchVal.arr [Concept.mk ("a") none ("pa")]))
          (.ok (FetchVal.arr [Concept.mk ("a") none ("qa")]))
          (.ok ()) (.ok ()) (.ok ()) (.ok ()))
        ("g1") ("u1") =
      { effects := noEffects,
        result := .ok
          { uuid := "u1", group := "g1", status := "synchronisationIgnored",
            reason := some ("noNewConceptsToFollow"),
            newConceptsToFollow := none } }) :=
  ⟨(syncUserFollowers_ignored (Config.mk ("tool") ("admin"))
      (SyncEnv.mk (.ok (FetchVal.arr []))
        (.ok (FetchVal.arr [])) (.ok ()) (.ok ()) (.ok ()) (.ok ()))
      ("g1") ("u1")).1 rfl,
   (syncUserFollowers_ignored (Config.mk ("tool") ("admin"))
      (SyncEnv.mk
        (.ok (FetchVal.arr [Concept.mk ("a") none ("pa")]))
        (.ok (FetchVal.arr [Concept.mk ("a") none ("qa")]))
        (.ok ()) (.ok ()) (.ok ()) (.ok ()))
      ("g1") ("u1")).2
    [Concept.mk ("a") none ("pa")]
    [Concept.mk ("a") none ("qa")]
    rfl rfl (by decide) (by decide)⟩

/-- C6: not-found absorption in the workflow. A `NotFoundError` from the
group-concepts fetch or from the user-concepts fetch is treated as an empty
list — the run is identical to one whose fetch resolved with `[]`; a
`NotFoundError` from the email-digest-preference fetch causes the default
preference to be created; any error at these points that is not a
`NotFoundError` propagates to the caller and, in the preference case, no
preference is created. -/
theorem syncUserFollowers_notFound_absorption (cfg : Config) (env : SyncEnv)
    (groupId userId : String) :
    (∀ m, syncUserFollowers cfg
        { env with groupFetch := .error (ClientErr.notFound m) } groupId userId =
      syncUserFollowers cfg { env with groupFetch := .ok (FetchVal.arr []) }
        groupId userId) ∧
    (∀ m G, env.groupFetch = .ok (FetchVal.arr G) → 0 < G.length →
      syncUserFollowers cfg
          { env with userFetch := .error (ClientErr.notFound m) } groupId userId =
        syncUserFollowers cfg { env with userFetch := .ok (FetchVal.arr []) }
          groupId userId) ∧
    (∀ e, e.isNotFound = false → env.groupFetch = .error e →
      syncUserFollowers cfg env groupId userId =
        { effects := noEffects, result := .error e }) ∧
    (∀ e G, e.isNotFound = false → env.groupFetch = .ok (FetchVal.arr G) →
      0 < G.length → env.userFetch = .error e →
      syncUserFollowers cfg env groupId userId =
        { effects := noEffects, result := .error e }) ∧
    (∀ m G U, env.groupFetch = .ok (FetchVal.arr G) →
      env.userFetch = .ok (FetchVal.arr U) →
      (¬ ∀ a ∈ G, ∃ x ∈ U, x.uuid = a.uuid) →
      env.addFollowOutcome = .ok () →
      env.prefFetch = .error (ClientErr.notFound m) →
      (syncUserFollowers cfg env groupId userId).effects.setPrefCalls =
        [{ userId := userId, pref := digestProperties cfg }]) ∧
    (∀ e G U, e.isNotFound = false →
      env.groupFetch = .ok (FetchVal.arr G) →
      env.userFetch = .ok (FetchVal.arr U) →
      (¬ ∀ a ∈ G, ∃ x ∈ U, x.uuid = a.uuid) →
      env.addFollowOutcome = .ok () →
      env.prefFetch = .error e →
      (syncUserFollowers cfg env groupId userId).result = .error e ∧
      (syncUserFollowers cfg env groupId userId).effects.setPrefCalls = []) := by
  refine ⟨?_, ?_, ?_, ?_, ?_, ?_⟩
  · intro m
    simp [syncUserFollowers, absorbNotFound, ClientErr.isNotFound]
  · intro m G hG hGpos
    simp [syncUserFollowers, absorbNotFound, finishEmit, ClientErr.isNotFound, hG,
      hGpos]
  · intro e he hG
    simp [syncUserFollowers, absorbNotFound, hG, he, noEffects]
  · intro e G he hG hGpos hU
    simp [syncUserFollowers, absorbNotFound, hG, hGpos, hU, he, noEffects]
  · intro m G U hG hU hcond hadd hp
    have hGpos : 0 < G.length := by
      cases G with
      | nil => exact absurd (by simp) hcond
      | cons a l => simp
    cases hsp : env.setPrefOutcome with
    | error e2 =>
      simp [syncUserFollowers, absorbNotFound, finishEmit, hG, hU, hGpos, hcond,
        hadd, hp, hsp, ClientErr.isNotFound]
    | ok v =>
      cases hko : env.kinesisOutcome with
      | error e3 =>
        simp [syncUserFollowers, absorbNotFound, finishEmit, hG, hU, hGpos, hcond,
          hadd, hp, hsp, hko, ClientErr.isNotFound]
      | ok w =>
        simp [syncUserFollowers, absorbNotFound, finishEmit, hG, hU, hGpos, hcond,
          hadd, hp, hsp, hko, ClientErr.isNotFound]
  · intro e G U he hG hU hcond hadd hp
    have hGpos : 0 < G.length := by
      cases G with
      | nil => exact absurd (by simp) hcond
      | cons a l => simp
    refine ⟨?_, ?_⟩ <;>
      simp [syncUserFollowers, absorbNotFound, finishEmit, hG, hU, hGpos, hcond,
        hadd, hp, he]

/-- Witness for C6: each absorption and propagation case at concrete
inputs. -/
theorem syncUserFollowers_notFound_absorption_witness :
    (syncUserFollowers (Config.mk ("tool") ("admin"))
        { SyncEnv.mk (.ok (FetchVal.arr [])) (.ok (FetchVal.arr [])) (.ok ())
            (.ok ()) (.ok ()) (.ok ()) with
          groupFetch := .error (ClientErr.notFound ("gone")) } ("g1") ("u1") =
      syncUserFollowers (Config.mk ("tool") ("admin"))
        { SyncEnv.mk (.ok (FetchVal.arr [])) (.ok (FetchVal.arr [])) (.ok ())
            (.ok ()) (.ok ()) (.ok ()) with
          groupFetch := .ok (FetchVal.arr []) } ("g1") ("u1")) ∧
    (syncUserFollowers (Config.mk ("tool") ("admin"))
        { SyncEnv.mk (.ok (FetchVal.arr [Concept.mk ("a") none ("pa")]))
            (.ok (FetchVal.arr [])) (.ok ()) (.ok ()) (.ok ()) (.ok ()) with
          userFetch := .error (ClientErr.notFound ("gone")) } ("g1") ("u1") =
      syncUserFollowers (Config.mk ("tool") ("admin"))
        { SyncEnv.mk (.ok (FetchVal.arr [Concept.mk ("a") none ("pa")]))
            (.ok (FetchVal.arr [])) (.ok ()) (.ok ()) (.ok ()) (.ok ()) with
          userFetch := .ok (FetchVal.arr []) } ("g1") ("u1")) ∧
    (syncUserFollowers (Config.mk ("tool") ("admin"))
        (SyncEnv.mk (.error (ClientErr.other ("down"))) (.ok (FetchVal.arr []))
          (.ok ()) (.ok ()) (.ok ()) (.ok ())) ("g1") ("u1") =
      { effects := noEffects, result := .error (ClientErr.other ("down")) }) ∧
    (syncUserFollowers (Config.mk ("tool") ("admin"))
        (SyncEnv.mk (.ok (FetchVal.arr [Concept.mk ("a") none ("pa")]))
          (.error (ClientErr.other ("down"))) (.ok ()) (.ok ()) (.ok ()) (.ok ()))
        ("g1") ("u1") =
      { effects := noEffects, result := .error (ClientErr.other ("down")) }) ∧
    ((syncUserFollowers (Config.mk ("tool") ("admin"))
        (SyncEnv.mk (.ok (FetchVal.arr [Concept.mk ("b") none ("pb")]))
          (.ok (FetchVal.arr [Concept.mk ("a") none ("pa")])) (.ok ())
          (.error (ClientErr.notFound ("no pref"))) (.ok ()) (.ok ()))
        ("g1") ("u1")).effects.setPrefCalls =
      [{ userId := "u1",
         pref := digestProperties (Config.mk ("tool") ("admin")) }]) ∧
    ((syncUserFollowers (Config.mk ("tool") ("admin"))
        (SyncEnv.mk (.ok (FetchVal.arr [Concept.mk ("b") none ("pb")]))
          (.ok (FetchVal.arr [Concept.mk ("a") none ("pa")])) (.ok ())
          (.error (ClientErr.clientError ("pref down"))) (.ok ()) (.ok ()))
        ("g1") ("u1")).result = .error (ClientErr.clientError ("pref down")) ∧
      (syncUserFollowers (Config.mk ("tool") ("admin"))
        (SyncEnv.mk (.ok (FetchVal.arr [Concept.mk ("b") none ("pb")]))
          (.ok (FetchVal.arr [Concept.mk ("a") none ("pa")])) (.ok ())
          (.error (ClientErr.clientError ("pref down"))) (.ok ()) (.ok ()))
        ("g1") ("u1")).effects.setPrefCalls = []) :=
  ⟨(syncUserFollowers_notFound_absorption (Config.mk ("tool") ("admin"))
      (SyncEnv.mk (.ok (FetchVal.arr [])) (.ok (FetchVal.arr [])) (.ok ())
        (.ok ()) (.ok ()) (.ok ())) ("g1") ("u1")).1 ("gone"),
   (syncUserFollowers_notFound_absorption (Config.mk ("tool") ("admin"))
      (SyncEnv.mk (.ok (FetchVal.arr [Concept.mk ("a") none ("pa")]))
        (.ok (FetchVal.arr [])) (.ok ()) (.ok ()) (.ok ()) (.ok ())) ("g1")
      ("u1")).2.1 ("gone") [Concept.mk ("a") none ("pa")] rfl (by decide),
   (syncUserFollowers_notFound_absorption (Config.mk ("tool") ("admin"))
      (SyncEnv.mk (.error (ClientErr.other ("down"))) (.ok (FetchVal.arr []))
        (.ok ()) (.ok ()) (.ok ()) (.ok ())) ("g1") ("u1")).2.2.1
      (ClientErr.other ("down")) rfl rfl,
   (syncUserFollowers_notFound_absorption (Config.mk ("tool") ("admin"))
      (SyncEnv.mk (.ok (FetchVal.arr [Concept.mk ("a") none ("pa")]))
        (.error (ClientErr.other ("down"))) (.ok ()) (.ok ()) (.ok ()) (.ok ()))
      ("g1") ("u1")).2.2.2.1 (ClientErr.other ("down"))
      [Concept.mk ("a") none ("pa")] rfl rfl (by decide) rfl,
   (syncUserFollowers_notFound_absorption (Config.mk ("tool") ("admin"))
      (SyncEnv.mk (.ok (FetchVal.arr [Concept.mk ("b") none ("pb")]))
        (.ok (FetchVal.arr [Concept.mk ("a") none ("pa")])) (.ok ())
        (.error (ClientErr.notFound ("no pref"))) (.ok ()) (.ok ())) ("g1")
      ("u1")).2.2.2.2.1 ("no pref") [Concept.mk ("b") none ("pb")]
      [Concept.mk ("a") none ("pa")] rfl rfl (by decide) rfl rfl,
   (syncUserFollowers_notFound_absorption (Config.mk ("tool") ("admin"))
      (SyncEnv.mk (.ok (FetchVal.arr [Concept.mk ("b") none ("pb")]))
        (.ok (FetchVal.arr [Concept.mk ("a") none ("pa")])) (.ok ())
        (.error (ClientErr.clientError ("pref down"))) (.ok ()) (.ok ())) ("g1")
      ("u1")).2.2.2.2.2 (ClientErr.clientError ("pref down"))
      [Concept.mk ("b") none ("pb")] [Concept.mk ("a") none ("pa")] rfl rfl rfl
      (by decide) rfl rfl⟩

end MyFT
